import Mathlib

/-! Verification of the supergraph-config resolution pipeline and the
subgraph watchers of the rover repository, shallowly embedded in Lean.

Conventions of the embedding:
- Utf8PathBuf and Url values are modelled as String (the code only carries
  them around or converts them to strings here).
- Injected capabilities (file reads, introspection, remote fetches, the
  external apollo_parser parser, graph-ref parsing) are parameters of the
  functions that use them, returning Except for fallible calls.
- Rust Result is Except; panics are modelled as Option none where noted.
- BTreeMap is modelled as an association list built by ordered insertion
  (btreeInsert / btreeFromList below); the claims proved here only depend
  on its entries up to permutation.
- The buffer_unordered(50) fan-outs collect per-subgraph results in a
  nondeterministic completion order; that order is modelled by quantifying
  over an arbitrary permutation of the list of per-subgraph results. -/

namespace Rover

/-! ### GraphQL CST fragment (the apollo_parser view used by the code)

Only the shape consumed by schema_contains_link_directive is modelled: a
document is a list of definitions; schema definitions and schema extensions
carry an optional directive list, and every other kind of definition is
collapsed to the constructor other (its directives, attached to types,
fields or operations, are still carried, so the model can express that the
scan ignores them). A directive may lack a name in the CST, hence Option. -/

structure Directive where
  name : Option String
deriving DecidableEq

inductive Definition where
  | schemaDefinition (directives : Option (List Directive))
  | schemaExtension (directives : Option (List Directive))
  | other (directives : Option (List Directive))
deriving DecidableEq

/-- Document produced by parsing an SDL string with apollo_parser. -/
abbrev Document := List Definition

/-- Embedding of schema_contains_link_directive (full/subgraph.rs): scans
the top-level definitions of the parsed document for a schema definition or
schema extension whose directive list holds a directive named link. The
apollo_parser parser is an external crate, passed as the parameter parse. -/
def schema_contains_link_directive (parse : String → Document) (sdl : String) : Bool :=
  (parse sdl).any fun d =>
    (((match d with
        | Definition.schemaExtension ds => ds
        | Definition.schemaDefinition ds => ds
        | Definition.other _ => none : Option (List Directive))).map fun directives =>
          directives.any fun directive =>
            (directive.name.map fun n => "link" == n).getD false).getD false

/-- Claim-side predicate, following the words of the spec: the definition is
a top-level schema definition or schema extension carrying a directive named
link. It is false on every other kind of definition, whatever directives
that definition carries at other positions. -/
def DefinitionHasLinkDirective : Definition → Prop
  | Definition.schemaDefinition (some ds) => ∃ dir ∈ ds, dir.name = some "link"
  | Definition.schemaExtension (some ds) => ∃ dir ∈ ds, dir.name = some "link"
  | _ => False

/-- Claim-side predicate: the parsed document contains a top-level schema
definition or schema extension carrying a directive named link. -/
def HasTopLevelLinkDirective (doc : Document) : Prop :=
  ∃ d ∈ doc, DefinitionHasLinkDirective d

/-! ### Core data model (apollo-federation-types view used by the code) -/

/-- SchemaSource from apollo-federation-types: File, SubgraphIntrospection,
Subgraph (remote), Sdl. Paths and urls are modelled as String; the header
map is modelled as a list of pairs. -/
inductive SchemaSource where
  | file (file : String)
  | subgraphIntrospection (subgraph_url : String)
      (introspection_headers : Option (List (String × String)))
  | subgraph (graphref : String) (subgraph : String)
  | sdl (sdl : String)
deriving DecidableEq

/-- SubgraphConfig from apollo-federation-types: an optional routing url and
a schema source. -/
structure SubgraphConfig where
  routing_url : Option String
  schema : SchemaSource
deriving DecidableEq

/-- FederationVersion restricted to the two latest-version variants used by
the repository code and its tests. -/
inductive FederationVersion where
  | latestFedOne
  | latestFedTwo
deriving DecidableEq

/-- Fed-one test on a federation version. -/
def FederationVersion.is_fed_one : FederationVersion → Bool
  | .latestFedOne => true
  | .latestFedTwo => false

/-- Fed-two test on a federation version. -/
def FederationVersion.is_fed_two : FederationVersion → Bool
  | .latestFedOne => false
  | .latestFedTwo => true

/-- Per-subgraph resolution errors (error.rs is not among the sources; the
variants and their identifying payloads follow the constructors used in
full/subgraph.rs, with boxed error causes modelled as strings). -/
inductive ResolveSubgraphError where
  | supergraphConfigMissing
  | fs (message : String)
  | invalidGraphRef (graph_ref : String)
  | fetchRemoteSdlError (subgraph_name : String)
  | introspectionError (subgraph_name : String)
deriving DecidableEq

/-- Payload returned by the FetchRemoteSubgraph capability: name, routing
url and schema of the remote subgraph. -/
structure RemoteSubgraph where
  name : String
  routing_url : String
  schema : String
deriving DecidableEq

/-- UnresolvedSubgraph: a named SubgraphConfig awaiting resolution (its own
file is not among the sources; the fields follow their uses in
full/subgraph.rs: name, schema, routing_url). -/
structure UnresolvedSubgraph where
  name : String
  schema : SchemaSource
  routing_url : Option String
deriving DecidableEq

/-- LazilyResolvedSubgraph: schema source with validated file paths plus an
optional routing url (fields follow their uses in full/subgraph.rs and
lazy/supergraph.rs). -/
structure LazilyResolvedSubgraph where
  schema : SchemaSource
  routing_url : Option String
deriving DecidableEq

/-- FullyResolvedSubgraph (full/subgraph.rs): a subgraph resolved down to an
SDL string. -/
structure FullyResolvedSubgraph where
  routing_url : Option String
  schema : String
  is_fed_two : Bool
deriving DecidableEq

/-- Embedding of FullyResolvedSubgraph::resolve_file_schema: reads the file
through the Fs capability and derives the fed-two flag from the schema. -/
def FullyResolvedSubgraph.resolve_file_schema
    (readFile : String → Except String String) (parse : String → Document)
    (routing_url : Option String) (file : String) :
    Except ResolveSubgraphError FullyResolvedSubgraph :=
  match readFile file with
  | Except.error err => Except.error (ResolveSubgraphError.fs err)
  | Except.ok schema =>
      Except.ok { routing_url := routing_url, schema := schema,
                  is_fed_two := schema_contains_link_directive parse schema }

/-- Embedding of FullyResolvedSubgraph::resolve_subgraph: parses the graph
ref, fetches the remote subgraph, and defaults the routing url to the
fetched one when none was declared. -/
def FullyResolvedSubgraph.resolve_subgraph
    (graphRefFromStr : String → Except String String)
    (fetchRemote : String → String → Except String RemoteSubgraph)
    (parse : String → Document)
    (routing_url : Option String) (graph_ref : String) (subgraph : String) :
    Except ResolveSubgraphError FullyResolvedSubgraph :=
  match graphRefFromStr graph_ref with
  | Except.error _ => Except.error (ResolveSubgraphError.invalidGraphRef graph_ref)
  | Except.ok gr =>
      match fetchRemote gr subgraph with
      | Except.error _ => Except.error (ResolveSubgraphError.fetchRemoteSdlError subgraph)
      | Except.ok remote_subgraph =>
          let schema := remote_subgraph.schema
          Except.ok { routing_url := routing_url.or (some remote_subgraph.routing_url),
                      schema := schema,
                      is_fed_two := schema_contains_link_directive parse schema }

/-- Embedding of FullyResolvedSubgraph::resolve_subgraph_introspection:
introspects the subgraph url with the declared headers and defaults the
routing url to the string form of the subgraph url when none was declared. -/
def FullyResolvedSubgraph.resolve_subgraph_introspection
    (introspect : String → List (String × String) → Except String String)
    (parse : String → Document)
    (subgraph_name : String) (routing_url : Option String)
    (subgraph_url : String)
    (introspection_headers : Option (List (String × String))) :
    Except ResolveSubgraphError FullyResolvedSubgraph :=
  match introspect subgraph_url (introspection_headers.getD []) with
  | Except.error _ =>
      Except.error (ResolveSubgraphError.introspectionError subgraph_name)
  | Except.ok schema =>
      Except.ok { routing_url := routing_url.or (some subgraph_url),
                  schema := schema,
                  is_fed_two := schema_contains_link_directive parse schema }

/-- Embedding of FullyResolvedSubgraph::resolve_sdl: carries the literal SDL
through with no routing url. -/
def FullyResolvedSubgraph.resolve_sdl (parse : String → Document) (sdl : String) :
    Except ResolveSubgraphError FullyResolvedSubgraph :=
  Except.ok { routing_url := none, schema := sdl,
              is_fed_two := schema_contains_link_directive parse sdl }

/-- Embedding of FullyResolvedSubgraph::fully_resolve: dispatches on the
schema source of a lazily resolved subgraph. -/
def FullyResolvedSubgraph.fully_resolve
    (introspect : String → List (String × String) → Except String String)
    (graphRefFromStr : String → Except String String)
    (fetchRemote : String → String → Except String RemoteSubgraph)
    (readFile : String → Except String String)
    (parse : String → Document)
    (lazily_resolved_subgraph : LazilyResolvedSubgraph) (subgraph_name : String) :
    Except ResolveSubgraphError FullyResolvedSubgraph :=
  match lazily_resolved_subgraph.schema with
  | SchemaSource.file file =>
      FullyResolvedSubgraph.resolve_file_schema readFile parse
        lazily_resolved_subgraph.routing_url file
  | SchemaSource.subgraphIntrospection subgraph_url introspection_headers =>
      FullyResolvedSubgraph.resolve_subgraph_introspection introspect parse
        subgraph_name lazily_resolved_subgraph.routing_url subgraph_url
        introspection_headers
  | SchemaSource.subgraph graphref subgraph =>
      FullyResolvedSubgraph.resolve_subgraph graphRefFromStr fetchRemote parse
        lazily_resolved_subgraph.routing_url graphref subgraph
  | SchemaSource.sdl sdl => FullyResolvedSubgraph.resolve_sdl parse sdl

/-- Embedding of FullyResolvedSubgraph::resolve: dispatches on the schema
source of an unresolved subgraph; the File arm requires a config root and
resolves the path through UnresolvedSubgraph::resolve_file_path, passed as
the parameter resolve_file_path because its defining file is not among the
sources. -/
def FullyResolvedSubgraph.resolve
    (introspect : String → List (String × String) → Except String String)
    (graphRefFromStr : String → Except String String)
    (fetchRemote : String → String → Except String RemoteSubgraph)
    (readFile : String → Except String String)
    (parse : String → Document)
    (resolve_file_path : String → String → Except ResolveSubgraphError String)
    (supergraph_config_root : Option String)
    (unresolved_subgraph : UnresolvedSubgraph) :
    Except ResolveSubgraphError FullyResolvedSubgraph :=
  match unresolved_subgraph.schema with
  | SchemaSource.file file =>
      match supergraph_config_root with
      | none => Except.error ResolveSubgraphError.supergraphConfigMissing
      | some root =>
          match resolve_file_path root file with
          | Except.error e => Except.error e
          | Except.ok resolved_file =>
              FullyResolvedSubgraph.resolve_file_schema readFile parse
                unresolved_subgraph.routing_url resolved_file
  | SchemaSource.subgraphIntrospection subgraph_url introspection_headers =>
      FullyResolvedSubgraph.resolve_subgraph_introspection introspect parse
        unresolved_subgraph.name unresolved_subgraph.routing_url subgraph_url
        introspection_headers
  | SchemaSource.subgraph graphref subgraph =>
      FullyResolvedSubgraph.resolve_subgraph graphRefFromStr fetchRemote parse
        unresolved_subgraph.routing_url graphref subgraph
  | SchemaSource.sdl sdl => FullyResolvedSubgraph.resolve_sdl parse sdl

/-- Embedding of the From impl converting a FullyResolvedSubgraph into a
SubgraphConfig (full/subgraph.rs): the routing url is carried over and the
schema string becomes an Sdl schema source. -/
def FullyResolvedSubgraph.toSubgraphConfig (value : FullyResolvedSubgraph) :
    SubgraphConfig :=
  { routing_url := value.routing_url,
    schema := SchemaSource.sdl value.schema }

/-! ### Aggregation machinery shared by the three resolution stages -/

/-- Error component of an Except value. -/
def errPart : Except ε α → Option ε
  | Except.error e => some e
  | Except.ok _ => none

/-- Embedding of itertools partition_result over a collected result list:
the successes in order, paired with the failures in order. -/
def partitionResult (results : List (Except ε α)) : List α × List ε :=
  (results.filterMap Except.toOption, results.filterMap errPart)

/-- Ordered-map insertion: the model of inserting one key-value pair into a
BTreeMap represented as a key-sorted association list (a later insertion of
an existing key replaces its value, as BTreeMap insertion does). -/
def btreeInsert (k : String) (v : α) : List (String × α) → List (String × α)
  | [] => [(k, v)]
  | (k1, v1) :: t =>
      if k < k1 then (k, v) :: (k1, v1) :: t
      else if k = k1 then (k, v) :: t
      else (k1, v1) :: btreeInsert k v t

/-- Model of BTreeMap::from_iter: fold the pairs into an ordered map. -/
def btreeFromList (l : List (String × α)) : List (String × α) :=
  l.foldl (fun acc kv => btreeInsert kv.1 kv.2 acc) []

/-! ### The three supergraph-config stages -/

/-- UnresolvedSupergraphConfig (unresolved/supergraph.rs): origin path, the
named subgraphs (a BTreeMap, modelled as its entry list), and an optional
federation version. -/
structure UnresolvedSupergraphConfig where
  origin_path : Option String
  subgraphs : List (String × UnresolvedSubgraph)
  federation_version : Option FederationVersion
deriving DecidableEq

/-- LazilyResolvedSupergraphConfig (lazy/supergraph.rs). -/
structure LazilyResolvedSupergraphConfig where
  origin_path : Option String
  subgraphs : List (String × LazilyResolvedSubgraph)
  federation_version : Option FederationVersion
deriving DecidableEq

/-- Fan-out of the Unresolved to LazilyResolved stage: one per-subgraph
result for every entry, in iteration order. LazilyResolvedSubgraph::resolve
lives in a file that is not among the sources, so the per-subgraph resolver
is a parameter; the stage-level claims quantify over its outcomes. -/
def lazyResolutionResults
    (resolveSubgraph : String → UnresolvedSubgraph →
      Except ResolveSubgraphError LazilyResolvedSubgraph)
    (cfg : UnresolvedSupergraphConfig) :
    List (Except ResolveSubgraphError (String × LazilyResolvedSubgraph)) :=
  cfg.subgraphs.map fun nu => (resolveSubgraph nu.1 nu.2).map fun r => (nu.1, r)

/-- Embedding of LazilyResolvedSupergraphConfig::resolve after the
buffer_unordered(50) collection: collected is the per-subgraph result list
in completion order (theorems relate it to lazyResolutionResults by an
arbitrary permutation); the successes and failures are partitioned, and the
stage succeeds exactly when the failure list is empty, otherwise it returns
the whole failure list. -/
def LazilyResolvedSupergraphConfig.resolve
    (unresolved_supergraph_config : UnresolvedSupergraphConfig)
    (collected : List (Except ResolveSubgraphError (String × LazilyResolvedSubgraph))) :
    Except (List ResolveSubgraphError) LazilyResolvedSupergraphConfig :=
  let subgraphs := (partitionResult collected).1
  let errors := (partitionResult collected).2
  if errors.isEmpty then
    Except.ok { origin_path := unresolved_supergraph_config.origin_path,
                subgraphs := btreeFromList subgraphs,
                federation_version := unresolved_supergraph_config.federation_version }
  else Except.error errors

/-- Fan-out of the LazilyResolved to FullyResolved stage: one per-subgraph
FullyResolvedSubgraph::fully_resolve result for every entry, in iteration
order, over the injected capabilities. -/
def fullResolutionResults
    (introspect : String → List (String × String) → Except String String)
    (graphRefFromStr : String → Except String String)
    (fetchRemote : String → String → Except String RemoteSubgraph)
    (readFile : String → Except String String)
    (parse : String → Document)
    (cfg : LazilyResolvedSupergraphConfig) :
    List (Except ResolveSubgraphError (String × FullyResolvedSubgraph)) :=
  cfg.subgraphs.map fun nl =>
    (FullyResolvedSubgraph.fully_resolve introspect graphRefFromStr fetchRemote
        readFile parse nl.2 nl.1).map fun r => (nl.1, r)

/-- Embedding of LazilyResolvedSupergraphConfig::extract_subgraphs_as_sdls
after the buffer_unordered(50) collection: same aggregation as the lazy
stage, producing the BTreeMap of fully resolved subgraphs on success. -/
def LazilyResolvedSupergraphConfig.extract_subgraphs_as_sdls
    (collected : List (Except ResolveSubgraphError (String × FullyResolvedSubgraph))) :
    Except (List ResolveSubgraphError) (List (String × FullyResolvedSubgraph)) :=
  let subgraphs := (partitionResult collected).1
  let errors := (partitionResult collected).2
  if errors.isEmpty then Except.ok (btreeFromList subgraphs)
  else Except.error errors

/-! ### Federation-version reconciliation and the fully resolved config

The file full/supergraph.rs that defines FullyResolvedSupergraphConfig is
not among the sources; only its tests (unresolved/supergraph.rs) and its
callers (command/lsp/mod.rs) are. The reconciliation step below is
modelled from the spec, with the unspecified-version default pinned by the
in-repo test test_fully_resolve_subgraphs_success, whose unspecified-version
cases all expect LatestFedTwo, including the case in which every subgraph is
fed-one (and by the caller in command/lsp/mod.rs, which defaults an absent
version to LatestFedTwo). -/

/-- Config-level resolution errors (resolver.rs is not among the sources;
the two variants follow their uses in the in-repo tests and callers). -/
inductive ResolveSupergraphConfigError where
  | resolveSubgraphs (errors : List ResolveSubgraphError)
  | federationVersionMismatch (specified_federation_version : FederationVersion)
      (subgraph_names : List String)
deriving DecidableEq

/-- Names of the resolved subgraphs whose fed-two flag is set, in map
order. -/
def fedTwoSubgraphNames (subgraphs : List (String × FullyResolvedSubgraph)) :
    List String :=
  (subgraphs.filter fun ns => ns.2.is_fed_two).map Prod.fst

/-- Modelled from the spec: the federation-version reconciliation step of
FullyResolvedSupergraphConfig::resolve (full/supergraph.rs is missing from
the sources). A specified fed-one version fails with
FederationVersionMismatch carrying the fed-two subgraph names when any
resolved subgraph is fed-two, and otherwise the specified version stands;
an unspecified version resolves to LatestFedTwo, the default expected by
every unspecified-version case of the in-repo test
test_fully_resolve_subgraphs_success. -/
def resolve_federation_version (specified : Option FederationVersion)
    (subgraphs : List (String × FullyResolvedSubgraph)) :
    Except ResolveSupergraphConfigError FederationVersion :=
  let fed_two_subgraph_names := fedTwoSubgraphNames subgraphs
  match specified with
  | some v =>
      if v.is_fed_one && !fed_two_subgraph_names.isEmpty then
        Except.error (ResolveSupergraphConfigError.federationVersionMismatch v
          fed_two_subgraph_names)
      else Except.ok v
  | none => Except.ok FederationVersion.latestFedTwo

/-- FullyResolvedSupergraphConfig: origin path, fully resolved subgraphs,
and a federation version that is always present. -/
structure FullyResolvedSupergraphConfig where
  origin_path : Option String
  subgraphs : List (String × FullyResolvedSubgraph)
  federation_version : FederationVersion
deriving DecidableEq

/-- Modelled from the spec: FullyResolvedSupergraphConfig::resolve
(full/supergraph.rs is missing from the sources) after the
buffer_unordered(50) collection: aggregate all per-subgraph failures, and
on success reconcile the federation version against the resolved
subgraphs. -/
def FullyResolvedSupergraphConfig.resolve
    (cfg : UnresolvedSupergraphConfig)
    (collected : List (Except ResolveSubgraphError (String × FullyResolvedSubgraph))) :
    Except ResolveSupergraphConfigError FullyResolvedSupergraphConfig :=
  let subgraphs := (partitionResult collected).1
  let errors := (partitionResult collected).2
  if errors.isEmpty then
    let subgraph_map := btreeFromList subgraphs
    match resolve_federation_version cfg.federation_version subgraph_map with
    | Except.error e => Except.error e
    | Except.ok v =>
        Except.ok { origin_path := cfg.origin_path,
                    subgraphs := subgraph_map,
                    federation_version := v }
  else Except.error (ResolveSupergraphConfigError.resolveSubgraphs errors)

/-! ### Subgraph watchers (watchers/watcher/subgraph.rs) -/

/-- Profile options consumed only by watcher construction; opaque here. -/
structure ProfileOpt where
deriving DecidableEq

/-- Studio client configuration consumed only by watcher construction;
opaque here. -/
structure StudioClientConfig where
deriving DecidableEq

/-- FileWatcher (its defining file is not among the sources): constructed
from the path it watches. -/
structure FileWatcher where
  path : String
deriving DecidableEq

/-- SubgraphIntrospection watcher (its defining file is not among the
sources): constructed from the subgraph url, the header list and the
polling interval. -/
structure SubgraphIntrospection where
  subgraph_url : String
  headers : Option (List (String × String))
  polling_interval : Nat
deriving DecidableEq

/-- RemoteSchema one-shot fetch runner (its defining file is not among the
sources): constructed from the graph ref and subgraph name. -/
structure RemoteSchema where
  graphref : String
  subgraph : String
deriving DecidableEq

/-- Sdl one-shot runner (its defining file is not among the sources):
carries the literal SDL. -/
structure Sdl where
  sdl : String
deriving DecidableEq

/-- NonRepeatingFetch (watchers/watcher/subgraph.rs): the two one-shot
sources. -/
inductive NonRepeatingFetch where
  | remoteSchema (runner : RemoteSchema)
  | sdl (runner : Sdl)
deriving DecidableEq

/-- Embedding of NonRepeatingFetch::run: the Sdl runner returns its literal
SDL; the RemoteSchema runner calls into Studio, modelled by the parameter
remoteRun. -/
def NonRepeatingFetch.run (remoteRun : RemoteSchema → Except String String) :
    NonRepeatingFetch → Except String String
  | NonRepeatingFetch.remoteSchema runner => remoteRun runner
  | NonRepeatingFetch.sdl runner => Except.ok runner.sdl

/-- SubgraphWatcherKind (watchers/watcher/subgraph.rs). -/
inductive SubgraphWatcherKind where
  | file (w : FileWatcher)
  | introspect (i : SubgraphIntrospection)
  | once (f : NonRepeatingFetch)
deriving DecidableEq

/-- SubgraphWatcher wraps one SubgraphWatcherKind. -/
structure SubgraphWatcher where
  watcher : SubgraphWatcherKind
deriving DecidableEq

/-- Error for unsupported sources (declared in the file, never produced by
from_schema_source). -/
structure UnsupportedSchemaSource where
  source : SchemaSource
deriving DecidableEq

/-- Embedding of SubgraphWatcher::from_schema_source: File sources become
file watchers, SubgraphIntrospection sources become introspection watchers,
and Subgraph and Sdl sources become one-shot Once watchers; every arm
returns Ok. -/
def SubgraphWatcher.from_schema_source (schema_source : SchemaSource)
    (profile : ProfileOpt) (client_config : StudioClientConfig)
    (introspection_polling_interval : Nat) :
    Except UnsupportedSchemaSource SubgraphWatcher :=
  match schema_source with
  | SchemaSource.file file =>
      Except.ok (SubgraphWatcher.mk (SubgraphWatcherKind.file (FileWatcher.mk file)))
  | SchemaSource.subgraphIntrospection subgraph_url introspection_headers =>
      Except.ok (SubgraphWatcher.mk (SubgraphWatcherKind.introspect
        (SubgraphIntrospection.mk subgraph_url introspection_headers
          introspection_polling_interval)))
  | SchemaSource.subgraph graphref subgraph =>
      Except.ok (SubgraphWatcher.mk (SubgraphWatcherKind.once
        (NonRepeatingFetch.remoteSchema (RemoteSchema.mk graphref subgraph))))
  | SchemaSource.sdl sdl =>
      Except.ok (SubgraphWatcher.mk (SubgraphWatcherKind.once
        (NonRepeatingFetch.sdl (Sdl.mk sdl))))

/-- Embedding of SubgraphWatcherKind::watch: File and Introspect kinds
return the stream of their underlying watcher (the streams themselves live
in files that are not among the sources, so they are parameters of an
abstract stream type); the Once arm of the source is an unimplemented
panic, modelled as none. -/
def SubgraphWatcherKind.watch {σ : Type}
    (fileStream : FileWatcher → σ) (introStream : SubgraphIntrospection → σ) :
    SubgraphWatcherKind → Option σ
  | SubgraphWatcherKind.file w => some (fileStream w)
  | SubgraphWatcherKind.introspect i => some (introStream i)
  | SubgraphWatcherKind.once _ => none

/-- WatchedSdlChange: the unit emitted on the watcher output channel. -/
structure WatchedSdlChange where
  sdl : String
deriving DecidableEq

/-- Emission model of the SubtaskHandleUnit impl for SubgraphWatcher: the
spawned task obtains the watch stream and forwards every item as a
WatchedSdlChange; itemsOf gives the item sequence of a stream. When the
watch dispatch panics (the Once arm), the task dies before forwarding
anything and the channel closes with no emissions. -/
def SubgraphWatcher.handle_emissions {σ : Type}
    (fileStream : FileWatcher → σ) (introStream : SubgraphIntrospection → σ)
    (itemsOf : σ → List String) (self : SubgraphWatcher) : List WatchedSdlChange :=
  match SubgraphWatcherKind.watch fileStream introStream self.watcher with
  | none => []
  | some s => (itemsOf s).map fun sdl => { sdl := sdl }

/-- Errors of the per-subgraph fan-out over a subgraph map: one entry for
every subgraph whose resolver fails, in map order. -/
def stageErrors (subs : List (String × β))
    (f : String → β → Except ResolveSubgraphError γ) : List ResolveSubgraphError :=
  subs.filterMap fun nu => errPart (f nu.1 nu.2)

/-- Per-subgraph resolver of the LazilyResolved to FullyResolved stage, as
a name-first function (the shape shared with the lazy stage resolver). -/
def fullSubgraphResolver
    (introspect : String → List (String × String) → Except String String)
    (graphRefFromStr : String → Except String String)
    (fetchRemote : String → String → Except String RemoteSubgraph)
    (readFile : String → Except String String)
    (parse : String → Document) :
    String → LazilyResolvedSubgraph → Except ResolveSubgraphError FullyResolvedSubgraph :=
  fun subgraph_name lz =>
    FullyResolvedSubgraph.fully_resolve introspect graphRefFromStr fetchRemote
      readFile parse lz subgraph_name

/-! ### Concrete fixtures used by witness and counterexample theorems -/

/-- Introspection capability stub for witnesses. -/
def wIntro : String → List (String × String) → Except String String :=
  fun url _ => Except.ok ("introspected " ++ url)

/-- Graph-ref parsing stub for witnesses: accepts every string. -/
def wGrf : String → Except String String := fun s => Except.ok s

/-- Remote-fetch capability stub for witnesses. -/
def wFetch : String → String → Except String RemoteSubgraph :=
  fun _ name => Except.ok (RemoteSubgraph.mk name "http://remote.example" "remote sdl")

/-- File-read capability stub for witnesses. -/
def wRead : String → Except String String := fun _ => Except.ok "file sdl"

/-- Parser stub for witnesses: every string parses to one schema definition
carrying a link directive. -/
def wParse : String → Document :=
  fun _ => [Definition.schemaDefinition (some [Directive.mk (some "link")])]

/-- Parser stub for witnesses: every string parses to the empty document. -/
def wParseEmpty : String → Document := fun _ => []

/-- Sdl-sourced unresolved subgraph fixture. -/
def wSubA : UnresolvedSubgraph :=
  UnresolvedSubgraph.mk "a" (SchemaSource.sdl "type Query") none

/-- File-sourced unresolved subgraph fixture. -/
def wSubBad : UnresolvedSubgraph :=
  UnresolvedSubgraph.mk "bad" (SchemaSource.file "missing.graphql") none

/-- Two-subgraph unresolved config fixture. -/
def wCfgTwo : UnresolvedSupergraphConfig :=
  UnresolvedSupergraphConfig.mk none [("a", wSubA), ("bad", wSubBad)] none

/-- One-subgraph unresolved config fixture with no federation version. -/
def wCfgOne : UnresolvedSupergraphConfig :=
  UnresolvedSupergraphConfig.mk none [("a", wSubA)] none

/-- Per-subgraph lazy resolver fixture: fails on the subgraph named bad and
passes every other subgraph through. -/
def wLazyMixed : String → UnresolvedSubgraph →
    Except ResolveSubgraphError LazilyResolvedSubgraph :=
  fun name u =>
    if name = "bad" then Except.error (ResolveSubgraphError.fs "missing.graphql")
    else Except.ok (LazilyResolvedSubgraph.mk u.schema u.routing_url)

/-- Per-subgraph lazy resolver fixture that always succeeds. -/
def wLazyOk : String → UnresolvedSubgraph →
    Except ResolveSubgraphError LazilyResolvedSubgraph :=
  fun _ u => Except.ok (LazilyResolvedSubgraph.mk u.schema u.routing_url)

/-- Fed-one fully resolved subgraph fixture. -/
def wFullFedOne : FullyResolvedSubgraph :=
  FullyResolvedSubgraph.mk (some "http://a.example") "type Query" false

/-- Fed-two fully resolved subgraph fixture. -/
def wFullFedTwo : FullyResolvedSubgraph :=
  FullyResolvedSubgraph.mk (some "http://b.example") "extend schema" true

/-- One-subgraph unresolved config fixture specifying fed-one. -/
def wCfgFedOne : UnresolvedSupergraphConfig :=
  UnresolvedSupergraphConfig.mk none [("b", wSubA)]
    (some FederationVersion.latestFedOne)

/-- Sdl-sourced lazily resolved subgraph fixture. -/
def wLazySubA : LazilyResolvedSubgraph :=
  LazilyResolvedSubgraph.mk (SchemaSource.sdl "type Query") none

/-- One-subgraph lazily resolved config fixture. -/
def wLcfgOne : LazilyResolvedSupergraphConfig :=
  LazilyResolvedSupergraphConfig.mk none [("a", wLazySubA)] none

/-! ### Helper lemmas -/

theorem errPart_map (f : α → β) (r : Except ε α) :
    errPart (r.map f) = errPart r := by
  cases r <;> rfl

theorem btreeInsert_perm (k : String) (v : α) (m : List (String × α))
    (hk : k ∉ m.map Prod.fst) : (btreeInsert k v m).Perm ((k, v) :: m) := by
  induction m with
  | nil => simp [btreeInsert]
  | cons hd t ih =>
      obtain ⟨k1, v1⟩ := hd
      simp only [List.map_cons, List.mem_cons] at hk
      push_neg at hk
      obtain ⟨hk1, hkt⟩ := hk
      simp only [btreeInsert]
      by_cases hlt : k < k1
      · simp [hlt]
      · simp only [hlt, if_false, hk1, if_neg]
        exact (List.Perm.cons (k1, v1) (ih hkt)).trans
          (List.Perm.swap (k, v) (k1, v1) t)

theorem btreeFold_perm (l : List (String × α)) :
    ∀ m : List (String × α), (l.map Prod.fst).Nodup →
      (∀ x ∈ l.map Prod.fst, x ∉ m.map Prod.fst) →
      (l.foldl (fun acc kv => btreeInsert kv.1 kv.2 acc) m).Perm (m ++ l) := by
  induction l with
  | nil => intro m _ _; simp
  | cons hd t ih =>
      intro m hnd hdis
      obtain ⟨k, v⟩ := hd
      simp only [List.map_cons, List.nodup_cons] at hnd
      obtain ⟨hknt, hndt⟩ := hnd
      have hkm : k ∉ m.map Prod.fst := hdis k (by simp)
      have hins : (btreeInsert k v m).Perm ((k, v) :: m) := btreeInsert_perm k v m hkm
      have hinskeys : ((btreeInsert k v m).map Prod.fst).Perm (k :: m.map Prod.fst) := by
        simpa using hins.map Prod.fst
      have hdis2 : ∀ x ∈ t.map Prod.fst, x ∉ (btreeInsert k v m).map Prod.fst := by
        intro x hx hmem
        rcases List.mem_cons.mp ((hinskeys.mem_iff).mp hmem) with h1 | h2
        · exact hknt (h1 ▸ hx)
        · exact hdis x (by simp [hx]) h2
      have hmain := ih (btreeInsert k v m) hndt hdis2
      have hstep : (btreeInsert k v m ++ t).Perm (m ++ (k, v) :: t) := by
        refine (hins.append_right t).trans ?_
        exact List.perm_middle.symm
      simpa [List.foldl_cons] using hmain.trans hstep

theorem btreeFromList_perm (l : List (String × α)) (hnd : (l.map Prod.fst).Nodup) :
    (btreeFromList l).Perm l := by
  simpa [btreeFromList] using btreeFold_perm l [] hnd (by simp)

theorem fanout_errors (subs : List (String × β)) (f : String → β → Except ε γ) :
    ((subs.map fun nu => (f nu.1 nu.2).map fun r => (nu.1, r)).filterMap errPart)
      = subs.filterMap fun nu => errPart (f nu.1 nu.2) := by
  induction subs with
  | nil => rfl
  | cons hd t ih =>
      simp only [List.map_cons, List.filterMap_cons, errPart_map, ih]

theorem filterMap_toOption_cons_ok (x : α) (l : List (Except ε α)) :
    (Except.ok x :: l).filterMap Except.toOption = x :: l.filterMap Except.toOption :=
  rfl

theorem fanout_oks_keys (subs : List (String × β)) (f : String → β → Except ε γ)
    (h : (subs.filterMap fun nu => errPart (f nu.1 nu.2)) = []) :
    (((subs.map fun nu => (f nu.1 nu.2).map fun r => (nu.1, r)).filterMap
        Except.toOption).map Prod.fst) = subs.map Prod.fst := by
  induction subs with
  | nil => rfl
  | cons hd t ih =>
      cases hf : f hd.1 hd.2 with
      | error e => simp [List.filterMap_cons, errPart, hf] at h
      | ok r =>
          have ht : (t.filterMap fun nu => errPart (f nu.1 nu.2)) = [] := by
            simpa [List.filterMap_cons, errPart, hf] using h
          have hhead : ((f hd.1 hd.2).map fun r => (hd.1, r)) = Except.ok (hd.1, r) := by
            rw [hf]; rfl
          rw [List.map_cons, hhead, filterMap_toOption_cons_ok, List.map_cons,
            List.map_cons, ih ht]

theorem schema_contains_link_directive_iff (parse : String → Document) (s : String) :
    schema_contains_link_directive parse s = true ↔
      HasTopLevelLinkDirective (parse s) := by
  unfold schema_contains_link_directive HasTopLevelLinkDirective
  rw [List.any_eq_true]
  apply exists_congr
  intro d
  apply and_congr_right
  intro _
  cases d with
  | schemaDefinition ds =>
      cases ds with
      | none => simp [DefinitionHasLinkDirective]
      | some l =>
          show (l.any fun directive =>
              (directive.name.map fun n => "link" == n).getD false) = true ↔ _
          rw [List.any_eq_true]
          simp only [DefinitionHasLinkDirective]
          apply exists_congr
          intro dir
          apply and_congr_right
          intro _
          cases hn : dir.name with
          | none =>
              show (false = true) ↔ (none = some "link")
              simp
          | some n =>
              show (("link" == n) = true) ↔ (some n = some "link")
              simp only [beq_iff_eq, Option.some.injEq]
              exact eq_comm
  | schemaExtension ds =>
      cases ds with
      | none => simp [DefinitionHasLinkDirective]
      | some l =>
          show (l.any fun directive =>
              (directive.name.map fun n => "link" == n).getD false) = true ↔ _
          rw [List.any_eq_true]
          simp only [DefinitionHasLinkDirective]
          apply exists_congr
          intro dir
          apply and_congr_right
          intro _
          cases hn : dir.name with
          | none =>
              show (false = true) ↔ (none = some "link")
              simp
          | some n =>
              show (("link" == n) = true) ↔ (some n = some "link")
              simp only [beq_iff_eq, Option.some.injEq]
              exact eq_comm
  | other ds => simp [DefinitionHasLinkDirective]

theorem fully_resolve_fed_two
    (introspect : String → List (String × String) → Except String String)
    (graphRefFromStr : String → Except String String)
    (fetchRemote : String → String → Except String RemoteSubgraph)
    (readFile : String → Except String String)
    (parse : String → Document)
    (lz : LazilyResolvedSubgraph) (subgraph_name : String)
    (r : FullyResolvedSubgraph)
    (h : FullyResolvedSubgraph.fully_resolve introspect graphRefFromStr fetchRemote
      readFile parse lz subgraph_name = Except.ok r) :
    r.is_fed_two = schema_contains_link_directive parse r.schema := by
  unfold FullyResolvedSubgraph.fully_resolve FullyResolvedSubgraph.resolve_file_schema
    FullyResolvedSubgraph.resolve_subgraph_introspection
    FullyResolvedSubgraph.resolve_subgraph FullyResolvedSubgraph.resolve_sdl at h
  split at h <;> (try split at h) <;> (try split at h) <;>
    first
      | (rw [Except.ok.injEq] at h; subst h; rfl)
      | exact Except.noConfusion h

/-- C5: for every fully resolved subgraph produced by fully_resolve, the
is_fed_two flag is true iff the parsed SDL carries a link directive on a
top-level schema definition or schema extension; directives carried at
other positions never set it (the scan maps every other definition kind to
none). -/
theorem c5_is_fed_two_iff_top_level_link
    (introspect : String → List (String × String) → Except String String)
    (graphRefFromStr : String → Except String String)
    (fetchRemote : String → String → Except String RemoteSubgraph)
    (readFile : String → Except String String)
    (parse : String → Document)
    (lz : LazilyResolvedSubgraph) (subgraph_name : String)
    (r : FullyResolvedSubgraph)
    (h : FullyResolvedSubgraph.fully_resolve introspect graphRefFromStr fetchRemote
      readFile parse lz subgraph_name = Except.ok r) :
    (r.is_fed_two = true ↔ HasTopLevelLinkDirective (parse r.schema)) := by
  rw [fully_resolve_fed_two introspect graphRefFromStr fetchRemote readFile parse
    lz subgraph_name r h]
  exact schema_contains_link_directive_iff parse r.schema

/-- C5 witness: a concrete sdl-sourced subgraph resolved against a parser
whose document carries a top-level link directive. -/
theorem c5_is_fed_two_iff_top_level_link_witness :
    ((FullyResolvedSubgraph.mk none "type Query" true).is_fed_two = true ↔
      HasTopLevelLinkDirective
        (wParse (FullyResolvedSubgraph.mk none "type Query" true).schema)) :=
  c5_is_fed_two_iff_top_level_link wIntro wGrf wFetch wRead wParse
    (LazilyResolvedSubgraph.mk (SchemaSource.sdl "type Query") none) "a"
    (FullyResolvedSubgraph.mk none "type Query" true) (by rfl)

/-- C6: when a RemoteSubgraph-sourced subgraph resolves successfully, its
routing url is the declared one when declared, and otherwise the routing
url returned by the fetch; it is never none. -/
theorem c6_remote_fetch_routing_url
    (graphRefFromStr : String → Except String String)
    (fetchRemote : String → String → Except String RemoteSubgraph)
    (parse : String → Document)
    (routing_url : Option String) (graph_ref subgraph : String)
    (r : FullyResolvedSubgraph)
    (h : FullyResolvedSubgraph.resolve_subgraph graphRefFromStr fetchRemote parse
      routing_url graph_ref subgraph = Except.ok r) :
    ∃ gr remote, graphRefFromStr graph_ref = Except.ok gr ∧
      fetchRemote gr subgraph = Except.ok remote ∧
      r.routing_url = routing_url.or (some remote.routing_url) ∧
      (∀ u, routing_url = some u → r.routing_url = some u) ∧
      (routing_url = none → r.routing_url = some remote.routing_url) ∧
      r.routing_url ≠ none := by
  cases hgr : graphRefFromStr graph_ref with
  | error e => simp [FullyResolvedSubgraph.resolve_subgraph, hgr] at h
  | ok gr =>
      cases hfr : fetchRemote gr subgraph with
      | error e => simp [FullyResolvedSubgraph.resolve_subgraph, hgr, hfr] at h
      | ok remote =>
          simp only [FullyResolvedSubgraph.resolve_subgraph, hgr, hfr,
            Except.ok.injEq] at h
          subst h
          refine ⟨gr, remote, rfl, hfr, rfl, ?_, ?_, ?_⟩
          · intro u hu
            rw [hu]
            rfl
          · intro hn
            rw [hn]
            rfl
          · cases routing_url <;> simp [Option.or]

/-- C6 witness: a concrete remote-sourced subgraph with no declared routing
url resolves to the fetched routing url. -/
theorem c6_remote_fetch_routing_url_witness :
    ∃ gr remote, wGrf "g@c" = Except.ok gr ∧
      wFetch gr "a" = Except.ok remote ∧
      (FullyResolvedSubgraph.mk (some "http://remote.example") "remote sdl"
        false).routing_url = (none : Option String).or (some remote.routing_url) ∧
      (∀ u, (none : Option String) = some u →
        (FullyResolvedSubgraph.mk (some "http://remote.example") "remote sdl"
          false).routing_url = some u) ∧
      ((none : Option String) = none →
        (FullyResolvedSubgraph.mk (some "http://remote.example") "remote sdl"
          false).routing_url = some remote.routing_url) ∧
      (FullyResolvedSubgraph.mk (some "http://remote.example") "remote sdl"
        false).routing_url ≠ none :=
  c6_remote_fetch_routing_url wGrf wFetch wParseEmpty none "g@c" "a"
    (FullyResolvedSubgraph.mk (some "http://remote.example") "remote sdl" false)
    (by rfl)

/-- C8: converting a FullyResolvedSubgraph to a SubgraphConfig preserves the
routing url exactly and carries the schema text bit-for-bit as an Sdl
schema source. -/
theorem c8_to_subgraph_config_preserves (v : FullyResolvedSubgraph) :
    ((v.toSubgraphConfig).routing_url = v.routing_url ∧
      (v.toSubgraphConfig).schema = SchemaSource.sdl v.schema) :=
  ⟨rfl, rfl⟩

/-- C9: an Sdl-sourced subgraph always fully resolves with routing url none,
even when the lazily resolved or unresolved subgraph declared an explicit
routing url, carrying exactly the literal SDL and the derived fed-two
flag. -/
theorem c9_sdl_routing_url_dropped
    (introspect : String → List (String × String) → Except String String)
    (graphRefFromStr : String → Except String String)
    (fetchRemote : String → String → Except String RemoteSubgraph)
    (readFile : String → Except String String)
    (parse : String → Document)
    (resolve_file_path : String → String → Except ResolveSubgraphError String)
    (supergraph_config_root : Option String)
    (routing_url : Option String) (name s : String) :
    (FullyResolvedSubgraph.fully_resolve introspect graphRefFromStr fetchRemote
        readFile parse
        (LazilyResolvedSubgraph.mk (SchemaSource.sdl s) routing_url) name =
      Except.ok (FullyResolvedSubgraph.mk none s
        (schema_contains_link_directive parse s)) ∧
      FullyResolvedSubgraph.resolve introspect graphRefFromStr fetchRemote
        readFile parse resolve_file_path supergraph_config_root
        (UnresolvedSubgraph.mk name (SchemaSource.sdl s) routing_url) =
      Except.ok (FullyResolvedSubgraph.mk none s
        (schema_contains_link_directive parse s))) :=
  ⟨rfl, rfl⟩

/-- C10: when an Introspection-sourced subgraph resolves successfully, its
routing url defaults to the subgraph url when none was declared, and is
never none. -/
theorem c10_introspection_routing_url
    (introspect : String → List (String × String) → Except String String)
    (parse : String → Document)
    (subgraph_name : String) (routing_url : Option String)
    (subgraph_url : String)
    (introspection_headers : Option (List (String × String)))
    (r : FullyResolvedSubgraph)
    (h : FullyResolvedSubgraph.resolve_subgraph_introspection introspect parse
      subgraph_name routing_url subgraph_url introspection_headers =
        Except.ok r) :
    (r.routing_url = routing_url.or (some subgraph_url) ∧
      (∀ u, routing_url = some u → r.routing_url = some u) ∧
      (routing_url = none → r.routing_url = some subgraph_url) ∧
      r.routing_url ≠ none) := by
  cases hin : introspect subgraph_url (introspection_headers.getD []) with
  | error e =>
      simp [FullyResolvedSubgraph.resolve_subgraph_introspection, hin] at h
  | ok schema =>
      simp only [FullyResolvedSubgraph.resolve_subgraph_introspection, hin,
        Except.ok.injEq] at h
      subst h
      refine ⟨rfl, ?_, ?_, ?_⟩
      · intro u hu
        rw [hu]
        rfl
      · intro hn
        rw [hn]
        rfl
      · cases routing_url <;> simp [Option.or]

theorem lazyResolutionResults_eq
    (f : String → UnresolvedSubgraph → Except ResolveSubgraphError LazilyResolvedSubgraph)
    (cfg : UnresolvedSupergraphConfig) :
    lazyResolutionResults f cfg =
      cfg.subgraphs.map fun nu => (f nu.1 nu.2).map fun r => (nu.1, r) :=
  rfl

theorem fullResolutionResults_eq
    (introspect : String → List (String × String) → Except String String)
    (graphRefFromStr : String → Except String String)
    (fetchRemote : String → String → Except String RemoteSubgraph)
    (readFile : String → Except String String)
    (parse : String → Document)
    (cfg : LazilyResolvedSupergraphConfig) :
    fullResolutionResults introspect graphRefFromStr fetchRemote readFile parse cfg =
      cfg.subgraphs.map fun nl =>
        ((fullSubgraphResolver introspect graphRefFromStr fetchRemote readFile parse)
          nl.1 nl.2).map fun r => (nl.1, r) :=
  rfl

theorem aggregate_error_perm (subs : List (String × β))
    (f : String → β → Except ResolveSubgraphError γ)
    (collected : List (Except ResolveSubgraphError (String × γ)))
    (hperm : collected.Perm (subs.map fun nu => (f nu.1 nu.2).map fun r => (nu.1, r))) :
    ((partitionResult collected).2).Perm (stageErrors subs f) := by
  have h3 := hperm.filterMap errPart
  rw [fanout_errors subs f] at h3
  simpa [partitionResult, stageErrors] using h3

theorem aggregate_ok_keys (subs : List (String × β))
    (f : String → β → Except ResolveSubgraphError γ)
    (collected : List (Except ResolveSubgraphError (String × γ)))
    (hperm : collected.Perm (subs.map fun nu => (f nu.1 nu.2).map fun r => (nu.1, r)))
    (hnd : (subs.map Prod.fst).Nodup)
    (hz : stageErrors subs f = []) :
    ((partitionResult collected).2 = [] ∧
      ((btreeFromList (partitionResult collected).1).map Prod.fst).Perm
        (subs.map Prod.fst) ∧
      (btreeFromList (partitionResult collected).1).length = subs.length) := by
  have hz2 : (subs.filterMap fun nu => errPart (f nu.1 nu.2)) = [] := hz
  have hkeys : (((partitionResult collected).1).map Prod.fst).Perm
      (subs.map Prod.fst) := by
    have h2 := (hperm.filterMap Except.toOption).map Prod.fst
    rw [fanout_oks_keys subs f hz2] at h2
    simpa [partitionResult] using h2
  have her : (partitionResult collected).2 = [] := by
    have h3 := aggregate_error_perm subs f collected hperm
    rw [hz] at h3
    exact h3.eq_nil
  have hnodup2 : (((partitionResult collected).1).map Prod.fst).Nodup :=
    (hkeys.nodup_iff).mpr hnd
  have hbt := btreeFromList_perm ((partitionResult collected).1) hnodup2
  refine ⟨her, (hbt.map Prod.fst).trans hkeys, ?_⟩
  have hl := ((hbt.map Prod.fst).trans hkeys).length_eq
  simpa [List.length_map] using hl

theorem lazy_resolve_ok_of_no_errors (ucfg : UnresolvedSupergraphConfig)
    (collected : List (Except ResolveSubgraphError (String × LazilyResolvedSubgraph)))
    (hz : (partitionResult collected).2 = []) :
    LazilyResolvedSupergraphConfig.resolve ucfg collected =
      Except.ok (LazilyResolvedSupergraphConfig.mk ucfg.origin_path
        (btreeFromList (partitionResult collected).1) ucfg.federation_version) := by
  simp [LazilyResolvedSupergraphConfig.resolve, hz]

theorem lazy_resolve_error_of_errors (ucfg : UnresolvedSupergraphConfig)
    (collected : List (Except ResolveSubgraphError (String × LazilyResolvedSubgraph)))
    (hz : (partitionResult collected).2 ≠ []) :
    LazilyResolvedSupergraphConfig.resolve ucfg collected =
      Except.error (partitionResult collected).2 := by
  cases h : (partitionResult collected).2 with
  | nil => exact absurd h hz
  | cons a t => simp [LazilyResolvedSupergraphConfig.resolve, h]

theorem extract_ok_of_no_errors
    (collected : List (Except ResolveSubgraphError (String × FullyResolvedSubgraph)))
    (hz : (partitionResult collected).2 = []) :
    LazilyResolvedSupergraphConfig.extract_subgraphs_as_sdls collected =
      Except.ok (btreeFromList (partitionResult collected).1) := by
  simp [LazilyResolvedSupergraphConfig.extract_subgraphs_as_sdls, hz]

theorem extract_error_of_errors
    (collected : List (Except ResolveSubgraphError (String × FullyResolvedSubgraph)))
    (hz : (partitionResult collected).2 ≠ []) :
    LazilyResolvedSupergraphConfig.extract_subgraphs_as_sdls collected =
      Except.error (partitionResult collected).2 := by
  cases h : (partitionResult collected).2 with
  | nil => exact absurd h hz
  | cons a t => simp [LazilyResolvedSupergraphConfig.extract_subgraphs_as_sdls, h]

/-- C3: both resolution stages aggregate every per-subgraph failure: each
stage fails iff at least one subgraph fails, and on failure the returned
error list is exactly the list of failing-subgraph errors, one per failed
subgraph and up to the completion order of the concurrent fan-out, never
just the first. -/
theorem c3_error_aggregation
    (resolveSubgraph : String → UnresolvedSubgraph →
      Except ResolveSubgraphError LazilyResolvedSubgraph)
    (introspect : String → List (String × String) → Except String String)
    (graphRefFromStr : String → Except String String)
    (fetchRemote : String → String → Except String RemoteSubgraph)
    (readFile : String → Except String String)
    (parse : String → Document)
    (ucfg : UnresolvedSupergraphConfig) (lcfg : LazilyResolvedSupergraphConfig)
    (collected1 : List (Except ResolveSubgraphError (String × LazilyResolvedSubgraph)))
    (collected2 : List (Except ResolveSubgraphError (String × FullyResolvedSubgraph)))
    (hperm1 : collected1.Perm (lazyResolutionResults resolveSubgraph ucfg))
    (hperm2 : collected2.Perm (fullResolutionResults introspect graphRefFromStr
      fetchRemote readFile parse lcfg)) :
    ((stageErrors ucfg.subgraphs resolveSubgraph = [] ↔
        ∃ out, LazilyResolvedSupergraphConfig.resolve ucfg collected1 =
          Except.ok out) ∧
      (∀ es, LazilyResolvedSupergraphConfig.resolve ucfg collected1 =
          Except.error es →
        es.Perm (stageErrors ucfg.subgraphs resolveSubgraph) ∧
        es.length = (stageErrors ucfg.subgraphs resolveSubgraph).length) ∧
      (stageErrors lcfg.subgraphs (fullSubgraphResolver introspect graphRefFromStr
          fetchRemote readFile parse) = [] ↔
        ∃ out, LazilyResolvedSupergraphConfig.extract_subgraphs_as_sdls collected2 =
          Except.ok out) ∧
      (∀ es, LazilyResolvedSupergraphConfig.extract_subgraphs_as_sdls collected2 =
          Except.error es →
        es.Perm (stageErrors lcfg.subgraphs (fullSubgraphResolver introspect
          graphRefFromStr fetchRemote readFile parse)) ∧
        es.length = (stageErrors lcfg.subgraphs (fullSubgraphResolver introspect
          graphRefFromStr fetchRemote readFile parse)).length)) := by
  rw [lazyResolutionResults_eq] at hperm1
  rw [fullResolutionResults_eq] at hperm2
  have he1 := aggregate_error_perm _ _ _ hperm1
  have he2 := aggregate_error_perm _ _ _ hperm2
  refine ⟨⟨?_, ?_⟩, ?_, ⟨?_, ?_⟩, ?_⟩
  · intro hz
    rw [hz] at he1
    exact ⟨_, lazy_resolve_ok_of_no_errors ucfg collected1 he1.eq_nil⟩
  · rintro ⟨out, hout⟩
    by_contra hz
    have her : (partitionResult collected1).2 ≠ [] := by
      intro h0
      rw [h0] at he1
      exact hz he1.nil_eq.symm
    rw [lazy_resolve_error_of_errors ucfg collected1 her] at hout
    exact Except.noConfusion hout
  · intro es hes
    by_cases her : (partitionResult collected1).2 = []
    · rw [lazy_resolve_ok_of_no_errors ucfg collected1 her] at hes
      exact Except.noConfusion hes
    · rw [lazy_resolve_error_of_errors ucfg collected1 her] at hes
      rw [Except.error.injEq] at hes
      subst hes
      exact ⟨he1, he1.length_eq⟩
  · intro hz
    rw [hz] at he2
    exact ⟨_, extract_ok_of_no_errors collected2 he2.eq_nil⟩
  · rintro ⟨out, hout⟩
    by_contra hz
    have her : (partitionResult collected2).2 ≠ [] := by
      intro h0
      rw [h0] at he2
      exact hz he2.nil_eq.symm
    rw [extract_error_of_errors collected2 her] at hout
    exact Except.noConfusion hout
  · intro es hes
    by_cases her : (partitionResult collected2).2 = []
    · rw [extract_ok_of_no_errors collected2 her] at hes
      exact Except.noConfusion hes
    · rw [extract_error_of_errors collected2 her] at hes
      rw [Except.error.injEq] at hes
      subst hes
      exact ⟨he2, he2.length_eq⟩

/-- C3 witness: a two-subgraph config in which exactly one subgraph fails
the lazy stage, and a one-subgraph config whose full stage succeeds, with
the fan-outs collected in iteration order. -/
theorem c3_error_aggregation_witness :
    ((stageErrors wCfgTwo.subgraphs wLazyMixed = [] ↔
        ∃ out, LazilyResolvedSupergraphConfig.resolve wCfgTwo
          (lazyResolutionResults wLazyMixed wCfgTwo) = Except.ok out) ∧
      (∀ es, LazilyResolvedSupergraphConfig.resolve wCfgTwo
          (lazyResolutionResults wLazyMixed wCfgTwo) = Except.error es →
        es.Perm (stageErrors wCfgTwo.subgraphs wLazyMixed) ∧
        es.length = (stageErrors wCfgTwo.subgraphs wLazyMixed).length) ∧
      (stageErrors wLcfgOne.subgraphs (fullSubgraphResolver wIntro wGrf wFetch
          wRead wParseEmpty) = [] ↔
        ∃ out, LazilyResolvedSupergraphConfig.extract_subgraphs_as_sdls
          (fullResolutionResults wIntro wGrf wFetch wRead wParseEmpty wLcfgOne) =
            Except.ok out) ∧
      (∀ es, LazilyResolvedSupergraphConfig.extract_subgraphs_as_sdls
          (fullResolutionResults wIntro wGrf wFetch wRead wParseEmpty wLcfgOne) =
            Except.error es →
        es.Perm (stageErrors wLcfgOne.subgraphs (fullSubgraphResolver wIntro wGrf
          wFetch wRead wParseEmpty)) ∧
        es.length = (stageErrors wLcfgOne.subgraphs (fullSubgraphResolver wIntro
          wGrf wFetch wRead wParseEmpty)).length)) :=
  c3_error_aggregation wLazyMixed wIntro wGrf wFetch wRead wParseEmpty wCfgTwo
    wLcfgOne (lazyResolutionResults wLazyMixed wCfgTwo)
    (fullResolutionResults wIntro wGrf wFetch wRead wParseEmpty wLcfgOne)
    (List.Perm.refl _) (List.Perm.refl _)

/-- C7: when no per-subgraph error occurs, lazy resolution succeeds and
produces exactly as many entries as the input config, with the same name
set; and full resolution of that output, when its fan-out has no errors,
again produces exactly as many entries with the same name set. -/
theorem c7_success_preserves_names
    (resolveSubgraph : String → UnresolvedSubgraph →
      Except ResolveSubgraphError LazilyResolvedSubgraph)
    (introspect : String → List (String × String) → Except String String)
    (graphRefFromStr : String → Except String String)
    (fetchRemote : String → String → Except String RemoteSubgraph)
    (readFile : String → Except String String)
    (parse : String → Document)
    (ucfg : UnresolvedSupergraphConfig)
    (collected1 : List (Except ResolveSubgraphError (String × LazilyResolvedSubgraph)))
    (hnd : (ucfg.subgraphs.map Prod.fst).Nodup)
    (hperm1 : collected1.Perm (lazyResolutionResults resolveSubgraph ucfg))
    (hz1 : stageErrors ucfg.subgraphs resolveSubgraph = []) :
    ∃ out, LazilyResolvedSupergraphConfig.resolve ucfg collected1 = Except.ok out ∧
      (out.subgraphs.map Prod.fst).Perm (ucfg.subgraphs.map Prod.fst) ∧
      out.subgraphs.length = ucfg.subgraphs.length ∧
      ∀ collected2,
        collected2.Perm (fullResolutionResults introspect graphRefFromStr
          fetchRemote readFile parse out) →
        stageErrors out.subgraphs (fullSubgraphResolver introspect graphRefFromStr
          fetchRemote readFile parse) = [] →
        ∃ m, LazilyResolvedSupergraphConfig.extract_subgraphs_as_sdls collected2 =
            Except.ok m ∧
          (m.map Prod.fst).Perm (ucfg.subgraphs.map Prod.fst) ∧
          m.length = ucfg.subgraphs.length := by
  rw [lazyResolutionResults_eq] at hperm1
  obtain ⟨her1, hkeys1, hlen1⟩ :=
    aggregate_ok_keys ucfg.subgraphs resolveSubgraph collected1 hperm1 hnd hz1
  refine ⟨_, lazy_resolve_ok_of_no_errors ucfg collected1 her1, hkeys1, ?_, ?_⟩
  · have := hkeys1.length_eq
    simpa [List.length_map] using this
  · intro collected2 hperm2 hz2
    rw [fullResolutionResults_eq] at hperm2
    have hnd2 : ((btreeFromList (partitionResult collected1).1).map Prod.fst).Nodup :=
      (hkeys1.nodup_iff).mpr hnd
    obtain ⟨her2, hkeys2, hlen2⟩ :=
      aggregate_ok_keys _ _ collected2 hperm2 hnd2 hz2
    refine ⟨_, extract_ok_of_no_errors collected2 her2, hkeys2.trans hkeys1, ?_⟩
    have := (hkeys2.trans hkeys1).length_eq
    simpa [List.length_map] using this

/-- C7 witness: a one-subgraph config with an always-succeeding lazy
resolver and the sdl-backed full stage, collected in iteration order. -/
theorem c7_success_preserves_names_witness :
    ∃ out, LazilyResolvedSupergraphConfig.resolve wCfgOne
        (lazyResolutionResults wLazyOk wCfgOne) = Except.ok out ∧
      (out.subgraphs.map Prod.fst).Perm (wCfgOne.subgraphs.map Prod.fst) ∧
      out.subgraphs.length = wCfgOne.subgraphs.length ∧
      ∀ collected2,
        collected2.Perm (fullResolutionResults wIntro wGrf wFetch wRead
          wParseEmpty out) →
        stageErrors out.subgraphs (fullSubgraphResolver wIntro wGrf wFetch wRead
          wParseEmpty) = [] →
        ∃ m, LazilyResolvedSupergraphConfig.extract_subgraphs_as_sdls collected2 =
            Except.ok m ∧
          (m.map Prod.fst).Perm (wCfgOne.subgraphs.map Prod.fst) ∧
          m.length = wCfgOne.subgraphs.length :=
  c7_success_preserves_names wLazyOk wIntro wGrf wFetch wRead wParseEmpty wCfgOne
    (lazyResolutionResults wLazyOk wCfgOne) (by decide) (List.Perm.refl _)
    (by decide)

/-- C10 witness: a concrete introspection-sourced subgraph with no declared
routing url resolves to the subgraph url. -/
theorem c10_introspection_routing_url_witness :
    ((FullyResolvedSubgraph.mk (some "http://s.example")
        "introspected http://s.example" false).routing_url =
      (none : Option String).or (some "http://s.example") ∧
      (∀ u, (none : Option String) = some u →
        (FullyResolvedSubgraph.mk (some "http://s.example")
          "introspected http://s.example" false).routing_url = some u) ∧
      ((none : Option String) = none →
        (FullyResolvedSubgraph.mk (some "http://s.example")
          "introspected http://s.example" false).routing_url =
            some "http://s.example") ∧
      (FullyResolvedSubgraph.mk (some "http://s.example")
        "introspected http://s.example" false).routing_url ≠ none) :=
  c10_introspection_routing_url wIntro wParseEmpty "a" none "http://s.example"
    none (FullyResolvedSubgraph.mk (some "http://s.example")
      "introspected http://s.example" false) (by rfl)

theorem full_resolve_version_ok (cfg : UnresolvedSupergraphConfig)
    (collected : List (Except ResolveSubgraphError (String × FullyResolvedSubgraph)))
    (v : FederationVersion)
    (hz : (partitionResult collected).2 = [])
    (hv : resolve_federation_version cfg.federation_version
      (btreeFromList (partitionResult collected).1) = Except.ok v) :
    FullyResolvedSupergraphConfig.resolve cfg collected =
      Except.ok (FullyResolvedSupergraphConfig.mk cfg.origin_path
        (btreeFromList (partitionResult collected).1) v) := by
  simp [FullyResolvedSupergraphConfig.resolve, hz, hv]

theorem full_resolve_version_error (cfg : UnresolvedSupergraphConfig)
    (collected : List (Except ResolveSubgraphError (String × FullyResolvedSubgraph)))
    (e : ResolveSupergraphConfigError)
    (hz : (partitionResult collected).2 = [])
    (hv : resolve_federation_version cfg.federation_version
      (btreeFromList (partitionResult collected).1) = Except.error e) :
    FullyResolvedSupergraphConfig.resolve cfg collected = Except.error e := by
  simp [FullyResolvedSupergraphConfig.resolve, hz, hv]

theorem full_resolve_error_of_errors (cfg : UnresolvedSupergraphConfig)
    (collected : List (Except ResolveSubgraphError (String × FullyResolvedSubgraph)))
    (hz : (partitionResult collected).2 ≠ []) :
    FullyResolvedSupergraphConfig.resolve cfg collected =
      Except.error (ResolveSupergraphConfigError.resolveSubgraphs
        (partitionResult collected).2) := by
  cases h : (partitionResult collected).2 with
  | nil => exact absurd h hz
  | cons a t => simp [FullyResolvedSupergraphConfig.resolve, h]

theorem mem_fedTwoSubgraphNames (l : List (String × FullyResolvedSubgraph))
    (n : String) :
    n ∈ fedTwoSubgraphNames l ↔ ∃ s, (n, s) ∈ l ∧ s.is_fed_two = true := by
  unfold fedTwoSubgraphNames
  constructor
  · intro h
    obtain ⟨ns, hmem, hfst⟩ := List.mem_map.mp h
    obtain ⟨hmem2, hfed⟩ := List.mem_filter.mp hmem
    refine ⟨ns.2, ?_, hfed⟩
    rw [← hfst, Prod.mk.eta]
    exact hmem2
  · rintro ⟨s, hmem, hfed⟩
    exact List.mem_map.mpr ⟨(n, s), List.mem_filter.mpr ⟨hmem, hfed⟩, rfl⟩

/-- C1 counterexample: for the one-subgraph config whose only resolved
subgraph is fed-one and whose caller supplied no federation version, the
resolved version is LatestFedTwo, not fed-one as the claim requires. -/
theorem c1_fed_one_inference_counterexample :
    ¬ (∀ out, FullyResolvedSupergraphConfig.resolve wCfgOne
        [Except.ok ("a", wFullFedOne)] = Except.ok out →
      fedTwoSubgraphNames out.subgraphs = [] →
      out.federation_version = FederationVersion.latestFedOne) := by
  intro hclaim
  have h := hclaim (FullyResolvedSupergraphConfig.mk none [("a", wFullFedOne)]
    FederationVersion.latestFedTwo) (by rfl) (by rfl)
  exact absurd h (by decide)

/-- C1 (amended): the fully resolved federation version is always present,
and whenever the caller supplied no federation version it resolves to
LatestFedTwo — in particular it is fed-two when any resolved subgraph is
fed-two, but it is also fed-two when no resolved subgraph is. -/
theorem c1_unspecified_version_latest_fed_two
    (cfg : UnresolvedSupergraphConfig)
    (collected : List (Except ResolveSubgraphError (String × FullyResolvedSubgraph)))
    (out : FullyResolvedSupergraphConfig)
    (hv : cfg.federation_version = none)
    (hok : FullyResolvedSupergraphConfig.resolve cfg collected = Except.ok out) :
    out.federation_version = FederationVersion.latestFedTwo := by
  by_cases hz : (partitionResult collected).2 = []
  · have hfv : resolve_federation_version cfg.federation_version
        (btreeFromList (partitionResult collected).1) =
          Except.ok FederationVersion.latestFedTwo := by
      rw [hv]
      rfl
    rw [full_resolve_version_ok cfg collected _ hz hfv] at hok
    rw [Except.ok.injEq] at hok
    subst hok
    rfl
  · rw [full_resolve_error_of_errors cfg collected hz] at hok
    exact Except.noConfusion hok

/-- C1 witness: a config with one fed-one subgraph and no specified version
resolves with federation version LatestFedTwo. -/
theorem c1_unspecified_version_latest_fed_two_witness :
    (FullyResolvedSupergraphConfig.mk none [("a", wFullFedOne)]
      FederationVersion.latestFedTwo).federation_version =
        FederationVersion.latestFedTwo :=
  c1_unspecified_version_latest_fed_two wCfgOne [Except.ok ("a", wFullFedOne)]
    (FullyResolvedSupergraphConfig.mk none [("a", wFullFedOne)]
      FederationVersion.latestFedTwo) rfl (by rfl)

/-- C4: when the caller specified a fed-one version, every per-subgraph
resolution succeeded, and at least one resolved subgraph is fed-two, full
resolution fails with FederationVersionMismatch carrying the specified
version and exactly the names of the fed-two subgraphs — all of them and no
fed-one name. -/
theorem c4_fed_one_mismatch_names
    (cfg : UnresolvedSupergraphConfig) (v : FederationVersion)
    (collected : List (Except ResolveSubgraphError (String × FullyResolvedSubgraph)))
    (hv : cfg.federation_version = some v)
    (hone : v.is_fed_one = true)
    (hz : (partitionResult collected).2 = [])
    (hnd : (((partitionResult collected).1).map Prod.fst).Nodup)
    (hft : ∃ ns ∈ (partitionResult collected).1, ns.2.is_fed_two = true) :
    ∃ names, FullyResolvedSupergraphConfig.resolve cfg collected =
        Except.error (ResolveSupergraphConfigError.federationVersionMismatch v
          names) ∧
      (∀ n, n ∈ names ↔ ∃ s, (n, s) ∈ (partitionResult collected).1 ∧
        s.is_fed_two = true) := by
  have hbt := btreeFromList_perm ((partitionResult collected).1) hnd
  have hmemtwo : ∃ n, n ∈ fedTwoSubgraphNames
      (btreeFromList (partitionResult collected).1) := by
    obtain ⟨ns, hmem, hfed⟩ := hft
    refine ⟨ns.1, (mem_fedTwoSubgraphNames _ _).mpr ⟨ns.2, ?_, hfed⟩⟩
    rw [hbt.mem_iff, Prod.mk.eta]
    exact hmem
  have hempty : (fedTwoSubgraphNames
      (btreeFromList (partitionResult collected).1)).isEmpty = false := by
    obtain ⟨n, hn⟩ := hmemtwo
    cases h : fedTwoSubgraphNames (btreeFromList (partitionResult collected).1) with
    | nil =>
        rw [h] at hn
        exact absurd hn (List.not_mem_nil n)
    | cons a t => rfl
  have hfv : resolve_federation_version cfg.federation_version
      (btreeFromList (partitionResult collected).1) =
        Except.error (ResolveSupergraphConfigError.federationVersionMismatch v
          (fedTwoSubgraphNames (btreeFromList (partitionResult collected).1))) := by
    rw [hv]
    simp [resolve_federation_version, hone, hempty]
  refine ⟨fedTwoSubgraphNames (btreeFromList (partitionResult collected).1),
    full_resolve_version_error cfg collected _ hz hfv, ?_⟩
  intro n
  rw [mem_fedTwoSubgraphNames]
  constructor
  · rintro ⟨s, hmem, hfed⟩
    exact ⟨s, (hbt.mem_iff).mp hmem, hfed⟩
  · rintro ⟨s, hmem, hfed⟩
    exact ⟨s, (hbt.mem_iff).mpr hmem, hfed⟩

/-- C4 witness: a config specifying fed-one whose only resolved subgraph is
fed-two fails with a mismatch naming exactly that subgraph. -/
theorem c4_fed_one_mismatch_names_witness :
    ∃ names, FullyResolvedSupergraphConfig.resolve wCfgFedOne
        [Except.ok ("b", wFullFedTwo)] =
        Except.error (ResolveSupergraphConfigError.federationVersionMismatch
          FederationVersion.latestFedOne names) ∧
      (∀ n, n ∈ names ↔ ∃ s, (n, s) ∈ (partitionResult
          ([Except.ok ("b", wFullFedTwo)] :
            List (Except ResolveSubgraphError (String × FullyResolvedSubgraph)))).1 ∧
        s.is_fed_two = true) :=
  c4_fed_one_mismatch_names wCfgFedOne FederationVersion.latestFedOne
    [Except.ok ("b", wFullFedTwo)] rfl rfl (by rfl) (by decide)
    ⟨("b", wFullFedTwo), by decide, by decide⟩

/-- C2 counterexample: the watcher built from the inline SDL source type
Query emits no WatchedSdlChange at all when its watch handle runs (the Once
arm of the watch dispatch is an unimplemented panic), not exactly one. -/
theorem c2_one_shot_counterexample :
    (SubgraphWatcher.from_schema_source (SchemaSource.sdl "type Query")
        ProfileOpt.mk StudioClientConfig.mk 500 =
      Except.ok (SubgraphWatcher.mk (SubgraphWatcherKind.once
        (NonRepeatingFetch.sdl (Sdl.mk "type Query")))) ∧
     (SubgraphWatcher.handle_emissions (fun _ : FileWatcher => ([] : List String))
        (fun _ => []) id (SubgraphWatcher.mk (SubgraphWatcherKind.once
          (NonRepeatingFetch.sdl (Sdl.mk "type Query"))))).length ≠ 1) :=
  ⟨rfl, by decide⟩

/-- C2 (amended): a watcher built from a one-shot schema source (Subgraph or
Sdl) is a Once watcher, and the watch dispatch does not support Once kinds
(it is an unimplemented panic, modelled as none), so running the watch
handle emits no WatchedSdlChange at all before the channel closes; the
single SDL of a one-shot source is instead delivered by
NonRepeatingFetch::run, which returns exactly the literal SDL for the Sdl
variant. -/
theorem c2_once_watcher_emits_nothing {σ : Type}
    (fileStream : FileWatcher → σ) (introStream : SubgraphIntrospection → σ)
    (itemsOf : σ → List String)
    (remoteRun : RemoteSchema → Except String String)
    (profile : ProfileOpt) (client_config : StudioClientConfig)
    (interval : Nat) (sdl graphref subgraph : String) :
    (SubgraphWatcher.from_schema_source (SchemaSource.sdl sdl) profile
        client_config interval =
      Except.ok (SubgraphWatcher.mk (SubgraphWatcherKind.once
        (NonRepeatingFetch.sdl (Sdl.mk sdl)))) ∧
      SubgraphWatcher.from_schema_source (SchemaSource.subgraph graphref subgraph)
        profile client_config interval =
      Except.ok (SubgraphWatcher.mk (SubgraphWatcherKind.once
        (NonRepeatingFetch.remoteSchema (RemoteSchema.mk graphref subgraph)))) ∧
      (∀ f : NonRepeatingFetch,
        SubgraphWatcherKind.watch fileStream introStream
          (SubgraphWatcherKind.once f) = none ∧
        SubgraphWatcher.handle_emissions fileStream introStream itemsOf
          (SubgraphWatcher.mk (SubgraphWatcherKind.once f)) = []) ∧
      NonRepeatingFetch.run remoteRun (NonRepeatingFetch.sdl (Sdl.mk sdl)) =
        Except.ok sdl) := by
  refine ⟨rfl, rfl, ?_, rfl⟩
  intro f
  exact ⟨rfl, rfl⟩

end Rover
